import Mathlib

/-!
Shallow embedding of the point-of-sale backend in `app.py` (Flask + SQLite):
the customer resolver (`manage_customers`), the bill processor (`process_bill`),
the bill-history query (`get_bills`) and the product-suggestion lookup
(`get_product_suggestions`), together with proofs of the spec's claims.

Modelling conventions:
* SQLite rows become Lean structures; tables become lists kept in insertion
  order; `AUTOINCREMENT` surrogate keys become explicit `next_*` counters.
* Each HTTP handler becomes a pure function from the request data and the
  committed database to an outcome plus the new committed database.  The
  handlers commit exactly once, on the success path; every other exit leaves
  the transaction uncommitted (or rolls it back in the exception handler), and
  closing the connection then discards it, so in the model every error path
  returns the input database unchanged.
* SQL `UPPER` and Python `str.upper` fold only ASCII letters on the data the
  claims concern; both are modelled with `Char.toUpper`.  SQL `TRIM` and
  Python `str.strip` are modelled with a whitespace trim on the char list.
* `REAL` columns hold the caller-supplied money figures, which the code never
  does arithmetic on; they are modelled as `Rat`.  The rate columns are `INT`
  and profit arithmetic stays in `Int` (exact for these magnitudes).
* JSON scalar values that reach `int(...)` are modelled by `JsonVal`;
  Python `int` truncates a number toward zero and parses an integer string.
-/

namespace TestInventory

/-- ASCII uppercase of a string, character by character: models both SQLite's
`UPPER(...)` and Python's `str.upper()` on the ASCII data involved here. -/
def upperS (s : String) : String := String.mk (s.data.map Char.toUpper)

/-- Drop leading and trailing whitespace from a character list. -/
def trimChars (l : List Char) : List Char :=
  ((l.dropWhile Char.isWhitespace).reverse.dropWhile Char.isWhitespace).reverse

/-- Models SQL `TRIM(...)` and Python `str.strip()`. -/
def trimS (s : String) : String := String.mk (trimChars s.data)

/-- Parse a non-empty all-digit character list as a natural number. -/
def digitsToNat (l : List Char) : Option Nat :=
  if l ≠ [] ∧ l.all Char.isDigit then
    some (l.foldl (fun n c => n * 10 + (c.toNat - 48)) 0)
  else none

/-- Python `int(s)` on a string: surrounding whitespace is ignored, an optional
sign is allowed, and anything else (for example `"5.9"`) raises. -/
def pyStrToInt (s : String) : Option Int :=
  match trimChars s.data with
  | '-' :: rest => (digitsToNat rest).map (fun n => -(n : Int))
  | '+' :: rest => (digitsToNat rest).map (fun n => (n : Int))
  | l => (digitsToNat l).map (fun n => (n : Int))

/-- Truncation of a rational toward zero, the behaviour of Python `int` on a
float (`Int.tdiv` is truncating division). -/
def ratTrunc (q : Rat) : Int := q.num.tdiv (q.den : Int)

/-- A JSON scalar as it reaches `int(product.get('quantity'))`:
a number, a string, or `null` (also standing for an absent key). -/
inductive JsonVal where
  | jnum (q : Rat)
  | jstr (s : String)
  | jnull
deriving DecidableEq

/-- Python `int(v)` on a JSON scalar: numbers truncate toward zero, strings
must spell an integer, `null` raises (`TypeError`). -/
def pyInt : JsonVal → Option Int
  | JsonVal.jnum q => some (ratTrunc q)
  | JsonVal.jstr s => pyStrToInt s
  | JsonVal.jnull => none

/-- Case-insensitive comparison of one pattern char with one subject char,
as SQLite `LIKE` does for ASCII letters by default. -/
def likeChar (p c : Char) : Bool := p.toUpper == c.toUpper

/-- SQLite `LIKE` matching (default, no `ESCAPE`): `%` matches any run of
characters, `_` any single character, and plain characters match
ASCII-case-insensitively.  Structural recursion on the pattern: the `%` case
tries every split of the subject. -/
def likeMatch : List Char → List Char → Bool
  | [], s => s.isEmpty
  | p :: ps, s =>
    if p = '%' then (List.range (s.length + 1)).any (fun k => likeMatch ps (s.drop k))
    else if p = '_' then
      match s with
      | [] => false
      | _ :: s2 => likeMatch ps s2
    else
      match s with
      | [] => false
      | c :: s2 => likeChar p c && likeMatch ps s2

/-- `startsWithCI p s`: `p` is an ASCII-case-insensitive leading piece of `s`.
Used to restate what `LIKE 'term%'` does on wildcard-free terms. -/
def startsWithCI : List Char → List Char → Bool
  | [], _ => true
  | _ :: _, [] => false
  | p :: ps, c :: cs => (p.toUpper == c.toUpper) && startsWithCI ps cs

/-- Python `str.title()`: an alphabetic character following a non-alphabetic
one is uppercased, any other alphabetic character is lowercased. -/
def pyTitle (s : String) : String :=
  String.mk (s.data.foldl
    (fun (acc : List Char × Bool) c =>
      if c.isAlpha then
        (acc.1 ++ [if acc.2 then c.toLower else c.toUpper], true)
      else (acc.1 ++ [c], false))
    ([], false)).1

/-- A row of the `CUSTOMER` table. -/
structure Customer where
  customer_id : Nat
  customer_name : String
  mobile_no : String
  customer_type : String
deriving DecidableEq

/-- A row of the `INVENTORY` table.  The rate columns are declared `NOT NULL`
in the schema, but `process_bill` still checks them against `None`, so they
are modelled as `Option Int`; `STOCK` may go negative, hence `Int`. -/
structure InventoryItem where
  id : Nat
  brand : String
  product : String
  category : String
  stock : Int
  mrp : Int
  purchase_rate : Option Int
  wholesale_rate : Option Int
  retail_rate : Option Int
  hotel_rate : Option Int
deriving DecidableEq

/-- A row of the `BILLS` table. -/
structure Bill where
  bill_id : Nat
  customer_id : Nat
  total_items : Nat
  bill_amount : Rat
  tax_amount : Rat
  discount_amount : Rat
  total_amount : Rat
  profit_earned : Int
  payment_method : String
  payment_date : String
  status : String
deriving DecidableEq

/-- The persistent store: the three tables in insertion order plus the
`AUTOINCREMENT` counters. -/
structure DB where
  customers : List Customer
  inventory : List InventoryItem
  bills : List Bill
  next_customer_id : Nat
  next_bill_id : Nat
deriving DecidableEq

/-- The key `TRIM(UPPER(BRAND)) || ' ' || TRIM(UPPER(PRODUCT))` that
`process_bill` matches line-item names against. -/
def invKey (it : InventoryItem) : String :=
  trimS (upperS it.brand) ++ " " ++ trimS (upperS it.product)

/-- The key `UPPER(BRAND) || ' ' || UPPER(PRODUCT)` used by the
product-suggestion query (note: no `TRIM` there). -/
def productKey (it : InventoryItem) : String :=
  upperS it.brand ++ " " ++ upperS it.product

/-- `price_column_map` from `app.py`: customer class to rate column name. -/
def priceColumnMap (t : String) : Option String :=
  if t == "WHOLESALE" then some "WHOLESALE_RATE"
  else if t == "RETAIL" then some "RETAIL_RATE"
  else if t == "HOTEL-LINE" then some "HOTEL_RATE"
  else none

/-- Reading the selected rate column of a row, i.e. the effect of
interpolating the column name into `SELECT ... {price_column} as
SELLING_PRICE`. -/
def sellingRate (pc : String) (it : InventoryItem) : Option Int :=
  if pc == "WHOLESALE_RATE" then it.wholesale_rate
  else if pc == "RETAIL_RATE" then it.retail_rate
  else if pc == "HOTEL_RATE" then it.hotel_rate
  else none

/-- `payment_map.get(payment_method, 'CASH')` from `process_bill`: the fixed
table with default `'CASH'`.  (The argument is already uppercased.) -/
def dbPaymentMethod (pm : String) : String :=
  if pm == "CASH" then "CASH"
  else if pm == "CARD" then "CARD"
  else if pm == "CREDIT" then "CREDIT"
  else if pm == "UPI" then "ONLINE"
  else "CASH"

/-- One entry of the `products` array of a checkout request.  `name` is
`product.get('name')` (`none` = key absent or JSON null); `quantity` is the
raw JSON value handed to `int(...)`. -/
structure LineItem where
  name : Option String
  quantity : JsonVal
deriving DecidableEq

/-- The parsed JSON body of `POST /api/process-bill`.  `customer_id = none`
models an absent/null id; `subtotal`/`tax`/`total` hold the result of
`float(...)` on the submitted field, `none` meaning the conversion raised. -/
structure BillRequest where
  customer_id : Option Nat
  products : List LineItem
  payment_method : String
  subtotal : Option Rat
  tax : Option Rat
  total : Option Rat
deriving DecidableEq

/-- Outcomes of `process_bill`, one per exit path of the handler. -/
inductive BillOutcome where
  | ok (bill_id : Nat)
  | invalidAmount
  | missingData
  | customerNotFound
  | noValidItems
  | internalError
deriving DecidableEq

/-- The per-item validity test of the loop in `process_bill`: the quantity
must survive `int(...)` (else `continue`), the name must be present and
non-empty, and the parsed quantity must be positive. -/
def lineValid (p : LineItem) : Option (String × Int) :=
  match pyInt p.quantity with
  | none => none
  | some q =>
    match p.name with
    | none => none
    | some nm => if nm = "" ∨ q ≤ 0 then none else some (nm, q)

/-- The body of one loop iteration of `process_bill` on a valid item
`(nm, q)`, acting on the accumulator (profit so far, valid-item count,
working inventory): look up the first row whose `invKey` equals the
uppercased name, accrue `(selling - purchase) * q` when both rates are
non-null, then decrement the stock of every matching row by `q`. -/
def processValid (pc : String) (st : Int × Nat × List InventoryItem)
    (v : String × Int) : Int × Nat × List InventoryItem :=
  let key := upperS v.1
  let profit :=
    match st.2.2.find? (fun it => invKey it == key) with
    | some it =>
      match it.purchase_rate, sellingRate pc it with
      | some pr, some sp => st.1 + (sp - pr) * v.2
      | _, _ => st.1
    | none => st.1
  (profit, st.2.1 + 1,
   st.2.2.map (fun it =>
     if invKey it == key then { it with stock := it.stock - v.2 } else it))

/-- One loop iteration of `process_bill`: invalid items are skipped
(`continue`) before any query runs. -/
def processLine (pc : String) (st : Int × Nat × List InventoryItem)
    (p : LineItem) : Int × Nat × List InventoryItem :=
  match lineValid p with
  | none => st
  | some v => processValid pc st v

/-- The `POST /api/process-bill` handler (`process_bill` in `app.py`).

Control flow mirrors the source: convert the amounts (failure: 400
"Invalid amount format"), test the falsiness of `customer_id`, `products`
and the uppercased payment method (failure: 400 "Missing critical bill
data"), look up the customer (failure: 404), run the loop, reject when no
item was valid (400 "No valid products to bill"), otherwise insert the one
bill row and commit.  The commit on the success path is the only commit, so
every other outcome leaves the store as it was (rollback in the `except`
arm, or close-without-commit); `internalError` is the `except` arm, reached
when the class has no price column and the first valid item's interpolated
query therefore raises mid-loop. -/
def process_bill (today : String) (req : BillRequest) (db : DB) :
    BillOutcome × DB :=
  match req.subtotal, req.tax, req.total with
  | some st, some tx, some tt =>
    let pm := upperS req.payment_method
    if req.customer_id.getD 0 = 0 ∨ req.products = [] ∨ pm = "" then
      (BillOutcome.missingData, db)
    else
      match db.customers.find? (fun c => c.customer_id == req.customer_id.getD 0) with
      | none => (BillOutcome.customerNotFound, db)
      | some cust =>
        match priceColumnMap cust.customer_type with
        | none =>
          if req.products.all (fun p => (lineValid p).isNone) then
            (BillOutcome.noValidItems, db)
          else (BillOutcome.internalError, db)
        | some pc =>
          let t := req.products.foldl (processLine pc) (0, 0, db.inventory)
          if t.2.1 = 0 then (BillOutcome.noValidItems, db)
          else
            let bill : Bill :=
              { bill_id := db.next_bill_id
                customer_id := req.customer_id.getD 0
                total_items := t.2.1
                bill_amount := st
                tax_amount := tx
                discount_amount := 0
                total_amount := tt
                profit_earned := t.1
                payment_method := dbPaymentMethod pm
                payment_date := today
                status := "SUCCESSFUL" }
            (BillOutcome.ok db.next_bill_id,
             { db with inventory := t.2.2
                       bills := db.bills ++ [bill]
                       next_bill_id := db.next_bill_id + 1 })
  | _, _, _ => (BillOutcome.invalidAmount, db)

/-- The parsed JSON body of `POST /api/customers`; `none` models an absent
key (JSON null), which is falsy like the empty string. -/
structure CustRequest where
  name : Option String
  phone : Option String
  ctype : Option String
deriving DecidableEq

/-- Falsiness of an optional string field, as `all([...])` sees it. -/
def isBlank : Option String → Bool
  | none => true
  | some s => s == ""

/-- Outcomes of the `POST` branch of `manage_customers`. -/
inductive CustOutcome where
  | okExisting (id : Nat)
  | okNew (id : Nat)
  | missingData
  | invalidType
deriving DecidableEq

/-- The `POST /api/customers` branch of `manage_customers`: reject blank
fields, return the existing id when the phone number is already registered
(no insert, no type validation on that path), otherwise validate the
uppercased class against the allowed list and insert. -/
def manage_customers_post (req : CustRequest) (db : DB) : CustOutcome × DB :=
  if isBlank req.name ∨ isBlank req.phone ∨ isBlank req.ctype then
    (CustOutcome.missingData, db)
  else
    match db.customers.find? (fun c => c.mobile_no == req.phone.getD "") with
    | some c => (CustOutcome.okExisting c.customer_id, db)
    | none =>
      let tyU := upperS (req.ctype.getD "")
      if ["WHOLESALE", "RETAIL", "HOTEL-LINE"].contains tyU then
        (CustOutcome.okNew db.next_customer_id,
         { db with
             customers := db.customers ++
               [{ customer_id := db.next_customer_id
                  customer_name := req.name.getD ""
                  mobile_no := req.phone.getD ""
                  customer_type := tyU }]
             next_customer_id := db.next_customer_id + 1 })
      else (CustOutcome.invalidType, db)

/-- The shape `{"name": ..., "mobile": ..., "type": ...}` of one customer
suggestion: stripped name, phone, title-cased class. -/
def customerSuggestionRow (c : Customer) : String × String × String :=
  (trimS c.customer_name, c.mobile_no, pyTitle c.customer_type)

/-- The `GET /api/customers?term=` branch of `manage_customers`: empty term
short-circuits to `[]`; otherwise the rows satisfying
`TRIM(CUSTOMER_NAME) LIKE 'term%'` (SQLite `LIKE`: ASCII-case-insensitive),
in table order. -/
def manage_customers_get (term : String) (db : DB) :
    List (String × String × String) :=
  if term = "" then []
  else
    (db.customers.filter
      (fun c => likeMatch (term.data ++ ['%']) (trimChars c.customer_name.data))).map
      customerSuggestionRow

/-- One row of the bill-history response: the bill columns joined with the
owning customer's name. -/
structure BillRow where
  bill_id : Nat
  customer_name : String
  total_items : Nat
  bill_amount : Rat
  tax_amount : Rat
  discount_amount : Rat
  total_amount : Rat
  profit_earned : Int
  payment_method : String
  payment_date : String
  status : String
deriving DecidableEq

/-- The inner `JOIN CUSTOMER` of the history query for one bill: `none` when
no customer row carries the bill's `CUSTOMER_ID` (the bill is then absent
from the result).  `CUSTOMER_ID` is the primary key, so `find?` is the
row. -/
def billRow (db : DB) (b : Bill) : Option BillRow :=
  (db.customers.find? (fun c => c.customer_id == b.customer_id)).map
    (fun c =>
      { bill_id := b.bill_id
        customer_name := c.customer_name
        total_items := b.total_items
        bill_amount := b.bill_amount
        tax_amount := b.tax_amount
        discount_amount := b.discount_amount
        total_amount := b.total_amount
        profit_earned := b.profit_earned
        payment_method := b.payment_method
        payment_date := b.payment_date
        status := b.status })

/-- `ORDER BY b.BILL_ID DESC`: row `a` may precede row `b`. -/
def billDescOrder (a b : BillRow) : Prop := b.bill_id ≤ a.bill_id

instance : DecidableRel billDescOrder := fun a b =>
  inferInstanceAs (Decidable (b.bill_id ≤ a.bill_id))

instance : IsTotal BillRow billDescOrder :=
  ⟨fun a b => Nat.le_total b.bill_id a.bill_id⟩

instance : IsTrans BillRow billDescOrder :=
  ⟨fun _ _ _ hab hbc => Nat.le_trans hbc hab⟩

/-- The `GET /api/bills` handler (`get_bills` in `app.py`): every bill joined
with its owning customer's name, sorted by bill id descending. -/
def get_bills (db : DB) : List BillRow :=
  List.insertionSort billDescOrder (db.bills.filterMap (billRow db))

/-- One entry of the product-suggestion response: display name
`f"{BRAND} {PRODUCT}".strip()` and the selected price column's value. -/
def productSuggestionRow (pc : String) (it : InventoryItem) :
    String × Option Int :=
  (trimS (it.brand ++ " " ++ it.product), sellingRate pc it)

/-- Response of a read-only endpoint: a JSON payload or an error body. -/
inductive QueryResult (α : Type) where
  | ok (val : α)
  | error (msg : String)
deriving DecidableEq

/-- The `GET /api/products?term=&customer_type=` handler
(`get_product_suggestions` in `app.py`): empty term or empty class
short-circuits to `[]`; an unmapped (non-empty) class is the 400
"Invalid customer type" error; otherwise the rows whose
`UPPER(BRAND) || ' ' || UPPER(PRODUCT)` matches `LIKE '%TERM%'`, each with
the class's price column. -/
def get_product_suggestions (term ctype : String) (db : DB) :
    QueryResult (List (String × Option Int)) :=
  let ctypeU := upperS ctype
  if term = "" ∨ ctypeU = "" then QueryResult.ok []
  else
    match priceColumnMap ctypeU with
    | none => QueryResult.error "Invalid customer type"
    | some pc =>
      QueryResult.ok
        ((db.inventory.filter
          (fun it =>
            likeMatch ('%' :: ((upperS term).data ++ ['%'])) (productKey it).data)).map
          (productSuggestionRow pc))

/-- The spec's own wording of the class-to-rate mapping (§4.2): Wholesale →
wholesale rate, Retail → retail rate, Hotel-Line → hotel rate.  Stated
directly on the row fields, to be compared with the code's composite
`priceColumnMap` + `sellingRate`. -/
def specClassRate (c : String) (it : InventoryItem) : Option Int :=
  if c == "WHOLESALE" then it.wholesale_rate
  else if c == "RETAIL" then it.retail_rate
  else if c == "HOTEL-LINE" then it.hotel_rate
  else none

/-! Concrete sample data, drawn from the spec's worked examples (§8), used to
instantiate the theorems below on closed inputs. -/

/-- The customer of the spec's running example. -/
def custAsha : Customer :=
  { customer_id := 1, customer_name := "Asha", mobile_no := "9990001111",
    customer_type := "RETAIL" }

/-- The inventory row of the spec's running example. -/
def itemSalt : InventoryItem :=
  { id := 1, brand := "Tata", product := "Salt", category := "Grocery",
    stock := 100, mrp := 20, purchase_rate := some 10,
    wholesale_rate := some 14, retail_rate := some 16, hotel_rate := some 15 }

/-- A store holding just the example customer and the example row. -/
def dbSalt : DB :=
  { customers := [custAsha], inventory := [itemSalt], bills := [],
    next_customer_id := 2, next_bill_id := 1 }

/-- An empty store. -/
def dbEmpty : DB :=
  { customers := [], inventory := [], bills := [],
    next_customer_id := 1, next_bill_id := 1 }

/-- The spec's example checkout: one line item "Tata Salt" × 5 paid by UPI. -/
def reqSalt : BillRequest :=
  { customer_id := some 1
    products := [{ name := some "Tata Salt", quantity := JsonVal.jnum 5 }]
    payment_method := "UPI"
    subtotal := some 80, tax := some 0, total := some 80 }

/-- The same checkout with the fractional JSON quantity `5.9`. -/
def reqFrac : BillRequest :=
  { reqSalt with
      products := [{ name := some "Tata Salt", quantity := JsonVal.jnum (mkRat 59 10) }] }

/-- The same checkout with the string quantity `"5.9"`, which `int` rejects. -/
def reqFracStr : BillRequest :=
  { reqSalt with
      products := [{ name := some "Tata Salt", quantity := JsonVal.jstr "5.9" }] }

/-- The same checkout paid by the free-text method "Online". -/
def reqOnline : BillRequest :=
  { reqSalt with payment_method := "Online" }

/-- A checkout whose three line items are each invalid: empty name,
zero quantity, unparseable quantity. -/
def reqInvalid : BillRequest :=
  { customer_id := some 1
    products :=
      [{ name := some "", quantity := JsonVal.jnum 5 },
       { name := some "Tata Salt", quantity := JsonVal.jnum 0 },
       { name := some "Tata Salt", quantity := JsonVal.jstr "abc" }]
    payment_method := "CASH"
    subtotal := some 10, tax := some 0, total := some 10 }

/-- A checkout request failing the missing-data validation. -/
def reqBad : BillRequest :=
  { customer_id := none, products := [], payment_method := "",
    subtotal := some 0, tax := some 0, total := some 0 }

/-- First registration of the spec's example customer. -/
def reqAsha : CustRequest :=
  { name := some "Asha", phone := some "9990001111", ctype := some "retail" }

/-- Repeat registration with the same phone but different name and an
invalid class label. -/
def reqAshaAgain : CustRequest :=
  { name := some "Binu", phone := some "9990001111", ctype := some "hotel" }

/-- A store with one lowercase-named customer, for the prefix-lookup claims. -/
def dbAlice : DB :=
  { customers := [{ customer_id := 1, customer_name := "alice", mobile_no := "999",
                    customer_type := "RETAIL" }],
    inventory := [], bills := [], next_customer_id := 2, next_bill_id := 1 }

/-- An earlier bill (smaller id) of the example customer. -/
def billA8 : Bill :=
  { bill_id := 1, customer_id := 1, total_items := 1, bill_amount := 10,
    tax_amount := 0, discount_amount := 0, total_amount := 10,
    profit_earned := 2, payment_method := "CASH",
    payment_date := "2026-10-01", status := "SUCCESSFUL" }

/-- A later bill (larger id) of the example customer. -/
def billB8 : Bill :=
  { billA8 with bill_id := 2, payment_date := "2026-10-02" }

/-- A store holding the two bills, for the bill-history claim. -/
def db8 : DB :=
  { customers := [custAsha], inventory := [], bills := [billA8, billB8],
    next_customer_id := 2, next_bill_id := 3 }

/-- The history row of `billA8`. -/
def rowA8 : BillRow :=
  { bill_id := 1, customer_name := "Asha", total_items := 1, bill_amount := 10,
    tax_amount := 0, discount_amount := 0, total_amount := 10,
    profit_earned := 2, payment_method := "CASH",
    payment_date := "2026-10-01", status := "SUCCESSFUL" }

/-- The history row of `billB8`. -/
def rowB8 : BillRow :=
  { rowA8 with bill_id := 2, payment_date := "2026-10-02" }

/-! General-purpose lemmas about the embedded operations. -/

/-- `find?` returns the head of the filtered list (`fetchone` of a query is
the first matching row). -/
theorem find?_eq_head?_filter {α : Type} (p : α → Bool) (l : List α) :
    l.find? p = (l.filter p).head? := by
  induction l with
  | nil => rfl
  | cons a l ih =>
    by_cases h : p a
    · rw [List.find?_cons_of_pos _ h, List.filter_cons_of_pos h]
      rfl
    · rw [List.find?_cons_of_neg _ h, List.filter_cons_of_neg h, ih]

/-- A string whose ASCII-uppercase form is empty is itself empty. -/
theorem upperS_eq_empty_iff {s : String} : upperS s = "" ↔ s = "" := by
  constructor
  · intro h
    have h2 : s.data.map Char.toUpper = ([] : List Char) := congrArg String.data h
    exact String.ext_iff.mpr (List.map_eq_nil_iff.mp h2)
  · intro h
    subst h
    rfl

/-- The loop of `process_bill` is the fold of `processValid` over the valid
line items only: invalid items are skipped without touching the state. -/
theorem foldl_processLine_eq (pc : String) (l : List LineItem) :
    ∀ st : Int × Nat × List InventoryItem,
      l.foldl (processLine pc) st = (l.filterMap lineValid).foldl (processValid pc) st := by
  induction l with
  | nil => intro st; rfl
  | cons a l ih =>
    intro st
    cases h : lineValid a with
    | none => simp [List.foldl_cons, List.filterMap_cons, h, processLine, ih]
    | some v => simp [List.foldl_cons, List.filterMap_cons, h, processLine, ih]

/-- A list whose filtering yields a single element splits around that
element, nothing else satisfying the predicate. -/
theorem filter_eq_singleton_split {α : Type} {p : α → Bool} {l : List α} {r : α}
    (h : l.filter p = [r]) :
    ∃ l1 l2, l = l1 ++ r :: l2 ∧ (∀ x ∈ l1, p x = false) ∧ p r = true ∧
      (∀ x ∈ l2, p x = false) := by
  induction l with
  | nil => exact absurd h (by simp)
  | cons a l ih =>
    by_cases hpa : p a
    · rw [List.filter_cons_of_pos hpa] at h
      have ha : a = r := by
        have := congrArg List.head? h
        simpa using this
      have hnil : l.filter p = [] := by
        have := congrArg List.tail h
        simpa using this
      subst ha
      refine ⟨[], l, rfl, by simp, hpa, ?_⟩
      intro x hx
      have := List.filter_eq_nil_iff.mp hnil x hx
      exact Bool.not_eq_true _ ▸ (by simpa using this)
    · rw [List.filter_cons_of_neg hpa] at h
      obtain ⟨l1, l2, rfl, h1, hr, h2⟩ := ih h
      refine ⟨a :: l1, l2, rfl, ?_, hr, h2⟩
      intro x hx
      rcases List.mem_cons.mp hx with hxa | hxl
      · subst hxa; exact Bool.not_eq_true _ ▸ (by simpa using hpa)
      · exact h1 x hxl


/-- C2: a checkout whose line items are all invalid (unparseable or
non-positive quantity, or missing/empty name) fails with the
no-valid-items error (bad request) and leaves the store — inventory stock
and bills — exactly unchanged. -/
theorem claim_C2 (today : String) (req : BillRequest) (db : DB)
    (st tx tt : Rat) (cid : Nat) (cust : Customer)
    (hst : req.subtotal = some st) (htx : req.tax = some tx) (htt : req.total = some tt)
    (hcid : req.customer_id = some cid) (hcid0 : cid ≠ 0)
    (hne : req.products ≠ [])
    (hpm : req.payment_method ≠ "")
    (hcust : db.customers.find? (fun c => c.customer_id == cid) = some cust)
    (hinv : ∀ p ∈ req.products, lineValid p = none) :
    process_bill today req db = (BillOutcome.noValidItems, db) := by
  have hgd : req.customer_id.getD 0 = cid := by rw [hcid]; rfl
  have hcond : ¬(req.customer_id.getD 0 = 0 ∨ req.products = [] ∨ upperS req.payment_method = "") := by
    push_neg
    exact ⟨by rw [hgd]; exact hcid0, hne, fun h => hpm (upperS_eq_empty_iff.mp h)⟩
  have hall : req.products.all (fun p => (lineValid p).isNone) = true :=
    List.all_eq_true.mpr (fun p hp => by rw [hinv p hp]; rfl)
  have hfm : req.products.filterMap lineValid = [] := List.filterMap_eq_nil_iff.mpr hinv
  simp only [process_bill, hst, htx, htt]
  rw [if_neg hcond, hgd, hcust]
  dsimp only
  cases hpcm : priceColumnMap cust.customer_type with
  | none =>
    dsimp only
    rw [if_pos hall]
  | some pc =>
    dsimp only
    rw [foldl_processLine_eq, hfm]
    simp

/-- C3: registering a phone number a second time — whatever name or class
the second request carries, even an invalid class — creates no new customer
record, leaves the store (including the first record's class) untouched, and
returns the id issued by the first registration. -/
theorem claim_C3 (db : DB) (r1 r2 : CustRequest)
    (h1n : isBlank r1.name = false) (h1p : isBlank r1.phone = false)
    (h1t : isBlank r1.ctype = false)
    (hnew : db.customers.find? (fun c => c.mobile_no == r1.phone.getD "") = none)
    (hty : ["WHOLESALE", "RETAIL", "HOTEL-LINE"].contains (upperS (r1.ctype.getD "")) = true)
    (hsame : r2.phone = r1.phone)
    (h2n : isBlank r2.name = false) (h2t : isBlank r2.ctype = false) :
    ∃ db', manage_customers_post r1 db = (CustOutcome.okNew db.next_customer_id, db') ∧
      manage_customers_post r2 db' = (CustOutcome.okExisting db.next_customer_id, db') := by
  refine ⟨{ db with
              customers := db.customers ++
                [{ customer_id := db.next_customer_id
                   customer_name := r1.name.getD ""
                   mobile_no := r1.phone.getD ""
                   customer_type := upperS (r1.ctype.getD "") }]
              next_customer_id := db.next_customer_id + 1 }, ?_, ?_⟩
  · simp only [manage_customers_post]
    rw [if_neg (by simp [h1n, h1p, h1t]), hnew]
    dsimp only
    rw [if_pos hty]
  · simp only [manage_customers_post]
    have h2p : isBlank r2.phone = false := by rw [hsame]; exact h1p
    rw [if_neg (by simp [h2n, h2p, h2t]), hsame]
    rw [List.find?_append, hnew]
    simp only [Option.none_or]
    rw [List.find?_cons_of_pos _ (by simp)]

/-- Rows whose key does not match are untouched by the stock-update map. -/
theorem map_id_of_key_false {l : List InventoryItem} {key : String} {q : Int}
    (h : ∀ x ∈ l, (invKey x == key) = false) :
    l.map (fun it => if invKey it == key then { it with stock := it.stock - q } else it) = l := by
  induction l with
  | nil => rfl
  | cons a l ih =>
    rw [List.map_cons, if_neg (by simp [h a (List.mem_cons_self a l)]),
        ih (fun x hx => h x (List.mem_cons_of_mem a hx))]

/-- When exactly one row matches the key, the stock-update `UPDATE` rewrites
the table to the same rows with just that row's stock decremented. -/
theorem map_stockdec_of_filter_singleton {l : List InventoryItem} {r : InventoryItem}
    {key : String} (q : Int)
    (h : l.filter (fun it => invKey it == key) = [r]) :
    ∃ l1 l2, l = l1 ++ r :: l2 ∧
      l.map (fun it => if invKey it == key then { it with stock := it.stock - q } else it) =
        l1 ++ { r with stock := r.stock - q } :: l2 := by
  obtain ⟨l1, l2, rfl, h1, hr, h2⟩ := filter_eq_singleton_split h
  refine ⟨l1, l2, rfl, ?_⟩
  rw [List.map_append, List.map_cons, map_id_of_key_false h1, map_id_of_key_false h2,
      if_pos hr]

/-- C1: a checkout with exactly one valid line item of quantity `q`, whose
normalized name matches exactly the inventory row `r` with purchase rate `p`
and class-specific selling rate `s` (both non-null), succeeds with a bill
whose accrued profit is `(s - p) * q` and one counted item, and rewrites the
inventory to the same rows with only `r`'s stock decremented by exactly
`q`. -/
theorem claim_C1 (today : String) (req : BillRequest) (db : DB)
    (st tx tt : Rat) (cid : Nat) (cust : Customer) (pc : String)
    (nm : String) (q : Int) (r : InventoryItem) (p s : Int)
    (hst : req.subtotal = some st) (htx : req.tax = some tx) (htt : req.total = some tt)
    (hcid : req.customer_id = some cid) (hcid0 : cid ≠ 0)
    (hpm : req.payment_method ≠ "")
    (hcust : db.customers.find? (fun c => c.customer_id == cid) = some cust)
    (hpc : priceColumnMap cust.customer_type = some pc)
    (hvalid : req.products.filterMap lineValid = [(nm, q)])
    (hmatch : db.inventory.filter (fun it => invKey it == upperS nm) = [r])
    (hp : r.purchase_rate = some p) (hs : sellingRate pc r = some s) :
    ∃ (bill : Bill) (l1 l2 : List InventoryItem),
      db.inventory = l1 ++ r :: l2 ∧
      process_bill today req db =
        (BillOutcome.ok db.next_bill_id,
         { db with inventory := l1 ++ { r with stock := r.stock - q } :: l2
                   bills := db.bills ++ [bill]
                   next_bill_id := db.next_bill_id + 1 }) ∧
      bill.profit_earned = (s - p) * q ∧
      bill.total_items = 1 := by
  have hgd : req.customer_id.getD 0 = cid := by rw [hcid]; rfl
  have hne : req.products ≠ [] := by
    intro he
    rw [he] at hvalid
    exact absurd hvalid (by simp)
  have hcond : ¬(req.customer_id.getD 0 = 0 ∨ req.products = [] ∨ upperS req.payment_method = "") := by
    push_neg
    exact ⟨by rw [hgd]; exact hcid0, hne, fun h => hpm (upperS_eq_empty_iff.mp h)⟩
  obtain ⟨l1, l2, hsplit, hmap⟩ := map_stockdec_of_filter_singleton q hmatch
  refine ⟨{ bill_id := db.next_bill_id
            customer_id := cid
            total_items := 0 + 1
            bill_amount := st
            tax_amount := tx
            discount_amount := 0
            total_amount := tt
            profit_earned := 0 + (s - p) * q
            payment_method := dbPaymentMethod (upperS req.payment_method)
            payment_date := today
            status := "SUCCESSFUL" }, l1, l2, hsplit, ?_, ?_, ?_⟩
  · simp only [process_bill, hst, htx, htt]
    rw [if_neg hcond, hgd, hcust]
    try dsimp only
    rw [hpc]
    try dsimp only
    rw [foldl_processLine_eq, hvalid, List.foldl_cons, List.foldl_nil]
    simp only [processValid]
    rw [find?_eq_head?_filter, hmatch, hmap]
    simp only [List.head?_cons]
    rw [hp, hs]
    try dsimp only
    rw [if_neg (by decide)]
  · exact zero_add _
  · rfl


/-- Exhaustive case analysis of `process_bill`: either the success path ran
(the customer was found, its class mapped to a price column, and the store
committed with the loop's final working inventory plus exactly one new bill
carrying the normalized payment method), or an error outcome was returned
and the store is unchanged. -/
theorem process_bill_cases (today : String) (req : BillRequest) (db : DB) :
    (∃ cust pc bill,
        db.customers.find? (fun c => c.customer_id == req.customer_id.getD 0) = some cust ∧
        priceColumnMap cust.customer_type = some pc ∧
        bill.payment_method = dbPaymentMethod (upperS req.payment_method) ∧
        process_bill today req db =
          (BillOutcome.ok db.next_bill_id,
           { db with
               inventory := (req.products.foldl (processLine pc) (0, 0, db.inventory)).2.2
               bills := db.bills ++ [bill]
               next_bill_id := db.next_bill_id + 1 })) ∨
    (∃ e, process_bill today req db = (e, db) ∧ ∀ i, e ≠ BillOutcome.ok i) := by
  cases hsub : req.subtotal with
  | none =>
    refine Or.inr ⟨BillOutcome.invalidAmount, ?_, fun i h => BillOutcome.noConfusion h⟩
    simp only [process_bill, hsub]
  | some st =>
  cases htx : req.tax with
  | none =>
    refine Or.inr ⟨BillOutcome.invalidAmount, ?_, fun i h => BillOutcome.noConfusion h⟩
    simp only [process_bill, hsub, htx]
  | some tx =>
  cases htt : req.total with
  | none =>
    refine Or.inr ⟨BillOutcome.invalidAmount, ?_, fun i h => BillOutcome.noConfusion h⟩
    simp only [process_bill, hsub, htx, htt]
  | some tt =>
  by_cases hcond : (req.customer_id.getD 0 = 0 ∨ req.products = [] ∨ upperS req.payment_method = "")
  · refine Or.inr ⟨BillOutcome.missingData, ?_, fun i h => BillOutcome.noConfusion h⟩
    simp only [process_bill, hsub, htx, htt]
    rw [if_pos hcond]
  · cases hfind : db.customers.find? (fun c => c.customer_id == req.customer_id.getD 0) with
    | none =>
      refine Or.inr ⟨BillOutcome.customerNotFound, ?_, fun i h => BillOutcome.noConfusion h⟩
      simp only [process_bill, hsub, htx, htt]
      rw [if_neg hcond, hfind]
    | some cust =>
      cases hpcm : priceColumnMap cust.customer_type with
      | none =>
        by_cases hall : req.products.all (fun p => (lineValid p).isNone) = true
        · refine Or.inr ⟨BillOutcome.noValidItems, ?_, fun i h => BillOutcome.noConfusion h⟩
          simp only [process_bill, hsub, htx, htt]
          rw [if_neg hcond, hfind]
          try dsimp only
          rw [hpcm]
          try dsimp only
          rw [if_pos hall]
        · refine Or.inr ⟨BillOutcome.internalError, ?_, fun i h => BillOutcome.noConfusion h⟩
          simp only [process_bill, hsub, htx, htt]
          rw [if_neg hcond, hfind]
          try dsimp only
          rw [hpcm]
          try dsimp only
          rw [if_neg hall]
      | some pc =>
        by_cases hcnt : (req.products.foldl (processLine pc) (0, 0, db.inventory)).2.1 = 0
        · refine Or.inr ⟨BillOutcome.noValidItems, ?_, fun i h => BillOutcome.noConfusion h⟩
          simp only [process_bill, hsub, htx, htt]
          rw [if_neg hcond, hfind]
          try dsimp only
          rw [hpcm]
          try dsimp only
          rw [if_pos hcnt]
        · refine Or.inl ⟨cust, pc,
            { bill_id := db.next_bill_id
              customer_id := req.customer_id.getD 0
              total_items := (req.products.foldl (processLine pc) (0, 0, db.inventory)).2.1
              bill_amount := st
              tax_amount := tx
              discount_amount := 0
              total_amount := tt
              profit_earned := (req.products.foldl (processLine pc) (0, 0, db.inventory)).1
              payment_method := dbPaymentMethod (upperS req.payment_method)
              payment_date := today
              status := "SUCCESSFUL" }, rfl, hpcm, rfl, ?_⟩
          simp only [process_bill, hsub, htx, htt]
          rw [if_neg hcond, hfind]
          try dsimp only
          rw [hpcm]
          try dsimp only
          rw [if_neg hcnt]

/-- C4: bill processing is atomic.  On every exit path whose outcome is not
`ok` — validation failure, customer not found, no valid items, or the
mid-loop exception (`internalError`) — the committed store is exactly the
input store: no stock decrement and no bill insert persist.  On the `ok`
path, the committed store carries the loop's final working inventory (all
per-item stock decrements) and the single bill insert together. -/
theorem claim_C4 (today : String) (req : BillRequest) (db : DB) :
    ((∀ i, (process_bill today req db).1 ≠ BillOutcome.ok i) →
      (process_bill today req db).2 = db) ∧
    (∀ i, (process_bill today req db).1 = BillOutcome.ok i →
      ∃ cust pc bill,
        db.customers.find? (fun c => c.customer_id == req.customer_id.getD 0) = some cust ∧
        priceColumnMap cust.customer_type = some pc ∧
        (process_bill today req db).2 =
          { db with
              inventory := (req.products.foldl (processLine pc) (0, 0, db.inventory)).2.2
              bills := db.bills ++ [bill]
              next_bill_id := db.next_bill_id + 1 }) := by
  rcases process_bill_cases today req db with ⟨cust, pc, bill, hf, hm, _, heq⟩ | ⟨e, heq, hne⟩
  · constructor
    · intro hno
      exact absurd (by rw [heq]) (hno db.next_bill_id)
    · intro i _
      exact ⟨cust, pc, bill, hf, hm, by rw [heq]⟩
  · constructor
    · intro _
      rw [heq]
    · intro i hi
      rw [heq] at hi
      exact absurd hi (hne i)

/-- C5: for every successful checkout, exactly one bill row is appended and
its persisted payment method is the submitted free-text method uppercased
and mapped through the fixed table (CASH/CARD/CREDIT kept, UPI to ONLINE,
anything else defaulting to CASH, no error); in particular "UPI" persists as
the stored value ONLINE and "Bogus" as CASH. -/
theorem claim_C5 (today : String) (req : BillRequest) (db : DB) (i : Nat) (db2 : DB)
    (h : process_bill today req db = (BillOutcome.ok i, db2)) :
    (∃ bill, db2.bills = db.bills ++ [bill] ∧
      bill.payment_method = dbPaymentMethod (upperS req.payment_method)) ∧
    dbPaymentMethod (upperS "UPI") = "ONLINE" ∧
    dbPaymentMethod (upperS "Bogus") = "CASH" := by
  rcases process_bill_cases today req db with ⟨cust, pc, bill, _, _, hbp, heq⟩ | ⟨e, heq, hne⟩
  · rw [h] at heq
    injection heq with h1 h2
    exact ⟨⟨bill, by rw [h2], hbp⟩, by decide, by decide⟩
  · rw [h] at heq
    injection heq with h1 _
    exact absurd h1.symm (hne i)

/-- C9: submitting payment method "Online" (or "ONLINE") persists CASH,
not ONLINE — the concrete checkout `reqOnline` stores CASH — and the only
input the fixed table sends to ONLINE is "UPI". -/
theorem claim_C9 :
    dbPaymentMethod (upperS "Online") = "CASH" ∧
    dbPaymentMethod (upperS "ONLINE") = "CASH" ∧
    ((process_bill "2026-10-12" reqOnline dbSalt).2.bills.map
      (fun b => b.payment_method)) = ["CASH"] ∧
    (∀ pm, dbPaymentMethod pm = "ONLINE" ↔ pm = "UPI") := by
  refine ⟨by decide, by decide, by decide, ?_⟩
  intro pm
  by_cases h1 : pm = "CASH"
  · subst h1; decide
  by_cases h2 : pm = "CARD"
  · subst h2; decide
  by_cases h3 : pm = "CREDIT"
  · subst h3; decide
  by_cases h4 : pm = "UPI"
  · subst h4; decide
  have hd : dbPaymentMethod pm = "CASH" := by
    simp only [dbPaymentMethod, beq_iff_eq]
    rw [if_neg h1, if_neg h2, if_neg h3, if_neg h4]
  rw [hd]
  exact iff_of_false (by decide) h4

/-- C10: a line-item quantity that is a non-integer JSON number is not
skipped: `int(...)` truncates it toward zero (5.9 to 5), the item counts as
valid when the truncated value is positive, and the truncated value drives
both the profit accrual ((16-10)*5 = 30) and the stock decrement (100 to
95); the string "5.9", by contrast, raises in `int(...)` and the item is
skipped, so the same bill fails with no-valid-items. -/
theorem claim_C10 :
    (∀ q : Rat, pyInt (JsonVal.jnum q) = some (ratTrunc q)) ∧
    pyInt (JsonVal.jnum (mkRat 59 10)) = some 5 ∧
    pyInt (JsonVal.jstr "5.9") = none ∧
    (process_bill "2026-10-12" reqFrac dbSalt).1 = BillOutcome.ok 1 ∧
    ((process_bill "2026-10-12" reqFrac dbSalt).2.inventory.map
      (fun it => it.stock)) = [95] ∧
    ((process_bill "2026-10-12" reqFrac dbSalt).2.bills.map
      (fun b => (b.total_items, b.profit_earned))) = [(1, 30)] ∧
    process_bill "2026-10-12" reqFracStr dbSalt = (BillOutcome.noValidItems, dbSalt) :=
  ⟨fun _ => rfl, by decide, by decide, by decide, by decide, by decide, by decide⟩


/-- On a wildcard-free term, SQLite `LIKE 'term%'` is exactly the
ASCII-case-insensitive starts-with test. -/
theorem likeMatch_wildcard_free (p : List Char)
    (hp : ∀ ch ∈ p, ch ≠ '%' ∧ ch ≠ '_') :
    ∀ s : List Char, likeMatch (p ++ ['%']) s = startsWithCI p s := by
  induction p with
  | nil =>
    intro s
    show likeMatch ['%'] s = startsWithCI [] s
    simp only [likeMatch, startsWithCI, if_pos rfl, if_true]
    rw [List.any_eq_true]
    exact ⟨s.length, List.mem_range.mpr (Nat.lt_succ_self _), by rw [List.drop_length]; rfl⟩
  | cons a p ih =>
    intro s
    have ha := hp a (List.mem_cons_self a p)
    have ih2 := ih (fun ch hch => hp ch (List.mem_cons_of_mem a hch))
    cases s with
    | nil =>
      simp only [List.cons_append, likeMatch, startsWithCI, if_neg ha.1, if_neg ha.2]
    | cons c s2 =>
      simp only [List.cons_append, likeMatch, startsWithCI, if_neg ha.1, if_neg ha.2,
        likeChar]
      rw [List.append_eq, ih2 s2]

/-- C6 (amended): the customer lookup-by-prefix returns the empty
collection for the empty prefix, and for a non-empty wildcard-free prefix it
returns exactly those customers whose trimmed name starts with the prefix
matched case-INSENSITIVELY (SQLite `LIKE` folds ASCII case by default) —
not case-sensitively as the claim stated. -/
theorem claim_C6_amended (term : String) (db : DB) :
    (term = "" → manage_customers_get term db = []) ∧
    (term ≠ "" → (∀ ch ∈ term.data, ch ≠ '%' ∧ ch ≠ '_') →
      manage_customers_get term db =
        (db.customers.filter
          (fun c => startsWithCI term.data (trimChars c.customer_name.data))).map
          customerSuggestionRow) := by
  constructor
  · intro h
    simp [manage_customers_get, h]
  · intro h hw
    unfold manage_customers_get
    rw [if_neg h]
    congr 1
    apply List.filter_congr
    intro c _
    exact likeMatch_wildcard_free term.data hw (trimChars c.customer_name.data)

/-- C6 (counterexample to the claim as stated): with the single customer
"alice", the prefix "AL" returns that customer even though the trimmed name
"alice" does not start with "AL" case-sensitively, so the lookup is not the
case-sensitive filter the claim describes. -/
theorem claim_C6_counterexample :
    manage_customers_get "AL" dbAlice = [("alice", "999", "Retail")] ∧
    List.isPrefixOf "AL".data (trimChars "alice".data) = false := by decide

/-- C6 witness: the amended theorem applied to the prefix "Al" on the
sample store. -/
theorem claim_C6_witness :
    manage_customers_get "Al" dbAlice =
      (dbAlice.customers.filter
        (fun c => startsWithCI "Al".data (trimChars c.customer_name.data))).map
        customerSuggestionRow :=
  (claim_C6_amended "Al" dbAlice).2 (by decide) (by decide)

/-- The code's composite lookup — class name to column name to column
value — agrees with the spec's direct class-to-rate-field mapping. -/
theorem sellingRate_eq_specClassRate {c pc : String} (h : priceColumnMap c = some pc)
    (it : InventoryItem) : sellingRate pc it = specClassRate c it := by
  unfold priceColumnMap at h
  by_cases h1 : c == "WHOLESALE"
  · rw [if_pos h1] at h
    obtain rfl := Option.some.inj h
    simp [sellingRate, specClassRate, h1]
  · rw [if_neg h1] at h
    by_cases h2 : c == "RETAIL"
    · rw [if_pos h2] at h
      obtain rfl := Option.some.inj h
      simp [sellingRate, specClassRate, h1, h2]
    · rw [if_neg h2] at h
      by_cases h3 : c == "HOTEL-LINE"
      · rw [if_pos h3] at h
        obtain rfl := Option.some.inj h
        simp [sellingRate, specClassRate, h1, h2, h3]
      · rw [if_neg h3] at h
        exact absurd h (by simp)

/-- C7 (amended): with a non-empty search term, a NON-EMPTY class outside
{Wholesale, Retail, Hotel-Line} fails with the 400 "Invalid customer type"
error, and every entry of a successful lookup is an inventory row's display
name paired with exactly that row's rate column for the caller's class.  The
claim as stated is false only for the empty class string, which short-
circuits to an empty result instead of the error. -/
theorem claim_C7_amended (term ctype : String) (db : DB) (hterm : term ≠ "") :
    (ctype ≠ "" → priceColumnMap (upperS ctype) = none →
      get_product_suggestions term ctype db = QueryResult.error "Invalid customer type") ∧
    (∀ l, get_product_suggestions term ctype db = QueryResult.ok l →
      ∀ e ∈ l, ∃ it, it ∈ db.inventory ∧
        e.1 = trimS (it.brand ++ " " ++ it.product) ∧
        e.2 = specClassRate (upperS ctype) it) := by
  constructor
  · intro hct hmapn
    unfold get_product_suggestions
    rw [if_neg (by push_neg; exact ⟨hterm, fun h => hct (upperS_eq_empty_iff.mp h)⟩)]
    rw [hmapn]
  · intro l hl e he
    unfold get_product_suggestions at hl
    by_cases hcond : (term = "" ∨ upperS ctype = "")
    · rw [if_pos hcond] at hl
      obtain rfl := (QueryResult.ok.inj hl).symm
      exact absurd he (List.not_mem_nil e)
    · rw [if_neg hcond] at hl
      cases hpcm : priceColumnMap (upperS ctype) with
      | none =>
        simp only [hpcm] at hl
        exact QueryResult.noConfusion hl
      | some pc =>
        simp only [hpcm] at hl
        obtain rfl := (QueryResult.ok.inj hl).symm
        obtain ⟨it, hit, hrow⟩ := List.mem_map.mp he
        refine ⟨it, (List.mem_filter.mp hit).1, ?_, ?_⟩
        · rw [← hrow]
          rfl
        · rw [← hrow]
          exact sellingRate_eq_specClassRate hpcm it

/-- C7 (counterexample to the claim as stated): the empty class is outside
the three allowed classes, yet with a non-empty term the lookup returns an
empty OK result rather than failing with the InvalidClass error. -/
theorem claim_C7_counterexample :
    get_product_suggestions "a" "" dbSalt = QueryResult.ok [] ∧
    priceColumnMap (upperS "") = none := by decide

/-- C7 witness: the amended theorem applied to the non-empty invalid class
"Bogus" on the sample store. -/
theorem claim_C7_witness :
    get_product_suggestions "salt" "Bogus" dbSalt =
      QueryResult.error "Invalid customer type" :=
  (claim_C7_amended "salt" "Bogus" dbSalt (by decide)).1 (by decide) (by decide)

/-- A joined history row carries its bill's id and the owning customer's
name. -/
theorem billRow_fields {db : DB} {b : Bill} {rb : BillRow}
    (h : billRow db b = some rb) :
    rb.bill_id = b.bill_id ∧
    ∃ c, db.customers.find? (fun c2 => c2.customer_id == b.customer_id) = some c ∧
      rb.customer_name = c.customer_name := by
  unfold billRow at h
  cases hf : db.customers.find? (fun c2 => c2.customer_id == b.customer_id) with
  | none =>
    rw [hf] at h
    exact Option.noConfusion h
  | some c =>
    rw [hf] at h
    simp only [Option.map_some'] at h
    obtain rfl := (Option.some.inj h).symm
    exact ⟨rfl, c, rfl, rfl⟩

/-- C8: the bill history is newest first by bill id — for bills `a`, `b`
in the store with `a.bill_id < b.bill_id` (both owned by existing
customers), `b`'s row appears strictly before `a`'s row in the returned
list — and every returned row carries the owning customer's name. -/
theorem claim_C8 (db : DB) (a b : Bill) (ra rb : BillRow)
    (ha : a ∈ db.bills) (hb : b ∈ db.bills)
    (hid : a.bill_id < b.bill_id)
    (hra : billRow db a = some ra) (hrb : billRow db b = some rb) :
    ra ∈ get_bills db ∧ rb ∈ get_bills db ∧
    (∀ i j, (get_bills db).get? i = some rb → (get_bills db).get? j = some ra → i < j) ∧
    (∀ r ∈ get_bills db, ∃ bl c, bl ∈ db.bills ∧
      db.customers.find? (fun c2 => c2.customer_id == bl.customer_id) = some c ∧
      r.customer_name = c.customer_name ∧ r.bill_id = bl.bill_id) := by
  have hperm : (get_bills db).Perm (db.bills.filterMap (billRow db)) := by
    unfold get_bills
    exact List.perm_insertionSort billDescOrder _
  have hsorted : (get_bills db).Sorted billDescOrder := by
    unfold get_bills
    exact List.sorted_insertionSort billDescOrder _
  have hida : ra.bill_id = a.bill_id := (billRow_fields hra).1
  have hidb : rb.bill_id = b.bill_id := (billRow_fields hrb).1
  refine ⟨hperm.mem_iff.mpr (List.mem_filterMap.mpr ⟨a, ha, hra⟩),
          hperm.mem_iff.mpr (List.mem_filterMap.mpr ⟨b, hb, hrb⟩), ?_, ?_⟩
  · intro i j hi hj
    obtain ⟨hilt, hgi⟩ := List.get?_eq_some.mp hi
    obtain ⟨hjlt, hgj⟩ := List.get?_eq_some.mp hj
    by_contra hcon
    push_neg at hcon
    rcases Nat.lt_or_eq_of_le hcon with hlt | heq2
    · have hrel := hsorted.rel_get_of_lt (a := ⟨j, hjlt⟩) (b := ⟨i, hilt⟩)
        (Fin.mk_lt_mk.mpr hlt)
      unfold billDescOrder at hrel
      rw [hgi, hgj] at hrel
      omega
    · have : ra = rb := hgj.symm.trans (heq2 ▸ hgi)
      rw [this] at hida
      omega
  · intro r hr
    obtain ⟨bl, hbl, hrow⟩ := List.mem_filterMap.mp (hperm.mem_iff.mp hr)
    obtain ⟨hid2, c, hc, hname⟩ := billRow_fields hrow
    exact ⟨bl, c, hbl, hc, hname, hid2⟩


/-- C1 witness: the spec's worked example — Tata Salt at purchase rate 10
and retail rate 16, quantity 5 — yields profit (16-10)*5 = 30 and stock
100 - 5 = 95. -/
theorem claim_C1_witness :
    ∃ (bill : Bill) (l1 l2 : List InventoryItem),
      dbSalt.inventory = l1 ++ itemSalt :: l2 ∧
      process_bill "2026-10-12" reqSalt dbSalt =
        (BillOutcome.ok dbSalt.next_bill_id,
         { dbSalt with inventory := l1 ++ { itemSalt with stock := itemSalt.stock - 5 } :: l2
                       bills := dbSalt.bills ++ [bill]
                       next_bill_id := dbSalt.next_bill_id + 1 }) ∧
      bill.profit_earned = (16 - 10) * 5 ∧
      bill.total_items = 1 :=
  claim_C1 "2026-10-12" reqSalt dbSalt 80 0 80 1 custAsha "RETAIL_RATE" "Tata Salt" 5 itemSalt
    10 16 (by decide) (by decide) (by decide) (by decide) (by decide) (by decide) (by decide)
    (by decide) (by decide) (by decide) (by decide) (by decide)

/-- C2 witness: three invalid line items (empty name, zero quantity,
unparseable quantity) against the sample store. -/
theorem claim_C2_witness :
    process_bill "2026-10-12" reqInvalid dbSalt = (BillOutcome.noValidItems, dbSalt) :=
  claim_C2 "2026-10-12" reqInvalid dbSalt 10 0 10 1 custAsha
    (by decide) (by decide) (by decide) (by decide) (by decide) (by decide) (by decide)
    (by decide) (by decide)

/-- C3 witness: registering Asha's phone twice on an empty store, the
second time with a different name and an invalid class. -/
theorem claim_C3_witness :
    ∃ db', manage_customers_post reqAsha dbEmpty =
        (CustOutcome.okNew dbEmpty.next_customer_id, db') ∧
      manage_customers_post reqAshaAgain db' =
        (CustOutcome.okExisting dbEmpty.next_customer_id, db') :=
  claim_C3 dbEmpty reqAsha reqAshaAgain (by decide) (by decide) (by decide) (by decide)
    (by decide) (by decide) (by decide) (by decide)

/-- C4 witness: a request failing validation leaves the sample store
unchanged. -/
theorem claim_C4_witness :
    (process_bill "2026-10-12" reqBad dbSalt).2 = dbSalt :=
  (claim_C4 "2026-10-12" reqBad dbSalt).1 (fun _ h => BillOutcome.noConfusion h)

/-- C5 witness: the example checkout paid by "UPI" persists the mapped
payment method. -/
theorem claim_C5_witness :
    (∃ bill, (process_bill "2026-10-12" reqSalt dbSalt).2.bills = dbSalt.bills ++ [bill] ∧
      bill.payment_method = dbPaymentMethod (upperS reqSalt.payment_method)) ∧
    dbPaymentMethod (upperS "UPI") = "ONLINE" ∧
    dbPaymentMethod (upperS "Bogus") = "CASH" :=
  claim_C5 "2026-10-12" reqSalt dbSalt 1 (process_bill "2026-10-12" reqSalt dbSalt).2 (by decide)

/-- C8 witness: a store with two bills of one customer; the id-2 row
precedes the id-1 row. -/
theorem claim_C8_witness :
    rowA8 ∈ get_bills db8 ∧ rowB8 ∈ get_bills db8 ∧
    (∀ i j, (get_bills db8).get? i = some rowB8 → (get_bills db8).get? j = some rowA8 → i < j) ∧
    (∀ r ∈ get_bills db8, ∃ bl c, bl ∈ db8.bills ∧
      db8.customers.find? (fun c2 => c2.customer_id == bl.customer_id) = some c ∧
      r.customer_name = c.customer_name ∧ r.bill_id = bl.bill_id) :=
  claim_C8 db8 billA8 billB8 rowA8 rowB8 (by decide) (by decide) (by decide) (by decide)
    (by decide)

end TestInventory
